import Mathlib

/-!
Verification of the suggestion-stream session manager of
src/week10/frontend/src/services/chatService.ts (class ChatService,
methods startSuggestionStream / stopSuggestionStream) and of its
near-duplicate src/week10/mobile/src/services/api.ts (class ChatService).

The manager is embedded as a transition system driven by the JavaScript
event loop.  `startSuggestionStream` is an async method: its body up to
`await apiService.getSuggestions(threadId)` runs synchronously in the
caller's turn (registering the callback, closing the current EventSource
if any, and issuing the open request); the continuation (assigning
`this.eventSource`, attaching onmessage/onerror, arming the 15000 ms
setTimeout) runs later as a microtask, and the catch branch (creation
failure) likewise.  Message events, error events and timer callbacks are
macrotasks: they never run while a start continuation is still pending.
The environment (transport, clock, UI caller) chooses which enabled
action happens next.
-/

namespace SuggestStream

/-- Decoded payload matching interface SuggestionEvent
(src/week10/frontend/src/types/api.ts lines 51-60).  The optional
`final?: boolean` field is modelled by its truthiness. -/
structure SuggestionEvent where
  route : Option String
  suggestions : List String
  event : String
  final : Bool
  deriving Repr, DecidableEq

/-- Raw message payload as seen by the onmessage handler.  The handler
runs `JSON.parse(event.data) as SuggestionEvent`; the TypeScript cast
performs no runtime validation, so the only failure the handler can see
is a JSON syntax error (which throws and is caught).
`unparseable`: JSON.parse throws (e.g. the string "not json").
`eventShaped e`: valid JSON that matches the SuggestionEvent shape.
`otherJson final`: valid JSON that does not match the SuggestionEvent
shape; JSON.parse succeeds and the parsed value is passed on as is, and
`final` records the truthiness of the value's `final` member, which the
handler then consults: `otherJson false` covers values whose final
member is absent or falsy, e.g. the string "\x7b\"x\":1\x7d" (and also
null, whose member access throws after the callback ran, inside the
same try block, which is observably identical for the manager's state);
`otherJson true` covers values with a truthy final member, e.g. the
string "\x7b\"final\":true\x7d", which trigger the same teardown as a
final event. -/
inductive Payload
  | unparseable
  | eventShaped (e : SuggestionEvent)
  | otherJson (final : Bool)
  deriving Repr, DecidableEq

/-- Argument a registered callback is invoked with: a decoded
SuggestionEvent, or a JSON value not matching the shape (identified by
the truthiness of its final member). -/
inductive CbArg
  | ev (e : SuggestionEvent)
  | nonEvent (final : Bool)
  deriving Repr, DecidableEq

/-- Observable output of one event-loop turn: the list of callback
invocations (callback id, argument), in order. -/
abbrev Output := List (Nat × CbArg)

/-- Bookkeeping for one EventSource object created by
apiService.getSuggestions (frontend api.ts lines 139-141): its identity,
the threadId captured by the handler closures and baked into the URL,
whether close() has been called on it, and the clock value at which the
manager's continuation received it (ghost data for the timing proofs). -/
structure StreamInfo where
  sid : Nat
  tid : String
  isOpen : Bool
  openedAt : Nat
  deriving Repr, DecidableEq

/-- Bookkeeping for one setTimeout(..., 15000) armed at chatService.ts
lines 52-55.  The source never stores the returned handle and never
calls clearTimeout, so the timer stays armed until it fires.  `sid` is
ghost data recording which stream was current when the timer was armed. -/
structure TimerInfo where
  tmid : Nat
  deadline : Nat
  fired : Bool
  sid : Nat
  deriving Repr, DecidableEq

/-- Manager state plus the event-loop context it lives in.
`suggestionCallbacks` and `eventSource` are the two fields of class
ChatService; `streams`, `pendingStarts`, `timers`, the id counters and
`time` model the runtime (EventSource objects, in-flight awaits,
armed timeouts, the clock). -/
structure MgrState where
  suggestionCallbacks : List (String × Nat)
  eventSource : Option Nat
  streams : List StreamInfo
  pendingStarts : List (Nat × String)
  timers : List TimerInfo
  nextSid : Nat
  nextTmid : Nat
  time : Nat
  deriving Repr, DecidableEq

/-- JS Map.prototype.set: replace in place if the key is present,
append otherwise. -/
def mapSet : List (String × Nat) → String → Nat → List (String × Nat)
  | [], k, v => [(k, v)]
  | (k0, v0) :: rest, k, v =>
      if k0 == k then (k, v) :: rest else (k0, v0) :: mapSet rest k v

/-- JS Map.prototype.get. -/
def mapGet : List (String × Nat) → String → Option Nat
  | [], _ => none
  | (k0, v0) :: rest, k => if k0 == k then some v0 else mapGet rest k

/-- Effect of EventSource.close() on one stream record. -/
def closeOne (c : Nat) (st : StreamInfo) : StreamInfo :=
  if st.sid == c then { st with isOpen := false } else st

/-- EventSource.close() on the object with identity `c`. -/
def closeStream (l : List StreamInfo) (c : Nat) : List StreamInfo :=
  l.map (closeOne c)

/-- Look up an EventSource object by identity. -/
def findStream (l : List StreamInfo) (c : Nat) : Option StreamInfo :=
  l.find? fun st => st.sid == c

/-- Effect of a timer firing on one timer record. -/
def fireOne (i : Nat) (t : TimerInfo) : TimerInfo :=
  if t.tmid == i then { t with fired := true } else t

/-- Mark timer `i` as having fired. -/
def fireTimer (l : List TimerInfo) (i : Nat) : List TimerInfo :=
  l.map (fireOne i)

/-- stopSuggestionStream (chatService.ts lines 63-69): if
this.eventSource is set, close it and null the field; then clear the
callback map.  Armed timers are untouched - the source has no
clearTimeout. -/
def stopSuggestionStream (s : MgrState) : MgrState :=
  match s.eventSource with
  | some c =>
      { s with streams := closeStream s.streams c
               eventSource := none
               suggestionCallbacks := [] }
  | none => { s with suggestionCallbacks := [] }

/-- Synchronous prologue of startSuggestionStream (chatService.ts lines
21-29): set the callback under threadId (other entries are kept), close
the current EventSource if any (the field is not nulled), and issue the
getSuggestions request; the await suspends here.  Note new EventSource
is constructed inside the async callee, its handle reaches the manager
only when the await resumes. -/
def startSuggestionStreamCall (s : MgrState) (threadId : String) (cb : Nat) : MgrState :=
  { s with suggestionCallbacks := mapSet s.suggestionCallbacks threadId cb
           streams := match s.eventSource with
             | some c => closeStream s.streams c
             | none => s.streams
           pendingStarts := s.pendingStarts ++ [(s.nextSid, threadId)]
           nextSid := s.nextSid + 1 }

/-- Resumption of startSuggestionStream after the await (chatService.ts
lines 29-55): assign this.eventSource, attach onmessage/onerror (the
closures capture threadId), and arm the 15000 ms timeout.  Whatever
this.eventSource pointed to before is overwritten without being
closed. -/
def startSuggestionStreamResume (s : MgrState) (r : Nat) (threadId : String) : MgrState :=
  { s with pendingStarts := s.pendingStarts.filter fun p => p.1 != r
           streams := s.streams ++ [⟨r, threadId, true, s.time⟩]
           eventSource := some r
           timers := s.timers ++ [⟨s.nextTmid, s.time + 15000, false, r⟩]
           nextTmid := s.nextTmid + 1 }

/-- Resumption of startSuggestionStream when getSuggestions rejected
(chatService.ts lines 57-60): the catch logs and calls
stopSuggestionStream. -/
def startSuggestionStreamThrow (s : MgrState) (r : Nat) : MgrState :=
  stopSuggestionStream
    { s with pendingStarts := s.pendingStarts.filter fun p => p.1 != r }

/-- The onmessage handler (chatService.ts lines 31-45) for a stream whose
closure captured `threadId`.  JSON syntax errors are swallowed; on a
parse success the callback found under the captured threadId (if any)
is invoked with the parsed value, and a truthy `final` member triggers
stopSuggestionStream. -/
def onmessage (s : MgrState) (threadId : String) (p : Payload) : MgrState × Output :=
  match p with
  | .unparseable => (s, [])
  | .eventShaped e =>
      let out : Output :=
        match mapGet s.suggestionCallbacks threadId with
        | some cb => [(cb, CbArg.ev e)]
        | none => []
      if e.final then (stopSuggestionStream s, out) else (s, out)
  | .otherJson fin =>
      let out : Output :=
        match mapGet s.suggestionCallbacks threadId with
        | some cb => [(cb, CbArg.nonEvent fin)]
        | none => []
      if fin then (stopSuggestionStream s, out) else (s, out)

/-- Events the environment can feed the manager: UI calls, await
resumptions, transport deliveries, timer fires, clock advance. -/
inductive Action
  | startCall (threadId : String) (cb : Nat)
  | startResume (r : Nat)
  | startThrow (r : Nat)
  | stopCall
  | msg (sid : Nat) (p : Payload)
  | errorEvent (sid : Nat)
  | timerFire (i : Nat)
  | advance (d : Nat)
  deriving Repr, DecidableEq

/-- One event-loop turn.  `none` means the action is not enabled in this
state (no such pending await, message on a closed or unknown stream,
timer not yet due, clock advance past a live deadline, or a macrotask
attempted while start continuations - microtasks - are still queued). -/
def step (s : MgrState) : Action → Option (MgrState × Output)
  | .startCall threadId cb => some (startSuggestionStreamCall s threadId cb, [])
  | .startResume r =>
      match s.pendingStarts.find? (fun p => p.1 == r) with
      | none => none
      | some q => some (startSuggestionStreamResume s r q.2, [])
  | .startThrow r =>
      match s.pendingStarts.find? (fun p => p.1 == r) with
      | none => none
      | some _ => some (startSuggestionStreamThrow s r, [])
  | .stopCall => some (stopSuggestionStream s, [])
  | .msg sid p =>
      if s.pendingStarts.isEmpty then
        match findStream s.streams sid with
        | none => none
        | some st => if st.isOpen then some (onmessage s st.tid p) else none
      else none
  | .errorEvent sid =>
      if s.pendingStarts.isEmpty then
        match findStream s.streams sid with
        | none => none
        | some st => if st.isOpen then some (stopSuggestionStream s, []) else none
      else none
  | .timerFire i =>
      if s.pendingStarts.isEmpty then
        match s.timers.find? (fun t => t.tmid == i) with
        | none => none
        | some t =>
            if t.fired then none
            else if t.deadline ≤ s.time then
              some (stopSuggestionStream { s with timers := fireTimer s.timers i }, [])
            else none
      else none
  | .advance d =>
      if s.pendingStarts.isEmpty then
        if s.timers.all (fun t => t.fired || decide (s.time + d ≤ t.deadline)) then
          some ({ s with time := s.time + d }, [])
        else none
      else none

/-- State of a freshly constructed ChatService, clock at zero. -/
def initState : MgrState :=
  ⟨[], none, [], [], [], 0, 0, 0⟩

/-- Run a sequence of event-loop turns, collecting callback invocations;
`none` if some action was not enabled. -/
def run (s : MgrState) : List Action → Option (MgrState × Output)
  | [] => some (s, [])
  | a :: acts =>
      match step s a with
      | none => none
      | some (s1, out) =>
          match run s1 acts with
          | none => none
          | some (s2, out2) => some (s2, out ++ out2)

/-- States reachable from a fresh manager by enabled event-loop turns. -/
inductive Reachable : MgrState → Prop
  | init : Reachable initState
  | next (a : Action) (s s1 : MgrState) (out : Output) :
      Reachable s → step s a = some (s1, out) → Reachable s1

/-- stopSuggestionStream of the mobile ChatService (mobile api.ts lines
183-189): same logic as the frontend one. -/
def mobileStopSuggestionStream (s : MgrState) : MgrState :=
  match s.eventSource with
  | some c =>
      { s with streams := closeStream s.streams c
               eventSource := none
               suggestionCallbacks := [] }
  | none => { s with suggestionCallbacks := [] }

/-- Synchronous part of the mobile startSuggestionStream (mobile api.ts
lines 146-152): set the callback, close the current stream if any, call
getSuggestions inside try.  The mobile getSuggestions (lines 90-95) is
an async method, so it always returns a promise and never throws
synchronously: the thenable check on line 153 is statically true, and
both the else branch (lines 175-177) and the outer catch (lines 178-180)
are unreachable. -/
def mobileStartSuggestionStreamCall (s : MgrState) (threadId : String) (cb : Nat) : MgrState :=
  { s with suggestionCallbacks := mapSet s.suggestionCallbacks threadId cb
           streams := match s.eventSource with
             | some c => closeStream s.streams c
             | none => s.streams
           pendingStarts := s.pendingStarts ++ [(s.nextSid, threadId)]
           nextSid := s.nextSid + 1 }

/-- Fulfillment handler of the mobile startSuggestionStream (mobile
api.ts lines 154-171): assign this.eventSource, attach onmessage and
onerror, arm the 15000 ms timeout. -/
def mobileStartSuggestionStreamResume (s : MgrState) (r : Nat) (threadId : String) : MgrState :=
  { s with pendingStarts := s.pendingStarts.filter fun p => p.1 != r
           streams := s.streams ++ [⟨r, threadId, true, s.time⟩]
           eventSource := some r
           timers := s.timers ++ [⟨s.nextTmid, s.time + 15000, false, r⟩]
           nextTmid := s.nextTmid + 1 }

/-- Rejection handler of the mobile startSuggestionStream (mobile api.ts
lines 172-174): stopSuggestionStream. -/
def mobileStartSuggestionStreamThrow (s : MgrState) (r : Nat) : MgrState :=
  mobileStopSuggestionStream
    { s with pendingStarts := s.pendingStarts.filter fun p => p.1 != r }

/-- Mobile onmessage handler (mobile api.ts lines 156-165): identical to
the frontend one except that the catch block is empty rather than
logging, which is not observable in the model. -/
def mobileOnmessage (s : MgrState) (threadId : String) (p : Payload) : MgrState × Output :=
  match p with
  | .unparseable => (s, [])
  | .eventShaped e =>
      let out : Output :=
        match mapGet s.suggestionCallbacks threadId with
        | some cb => [(cb, CbArg.ev e)]
        | none => []
      if e.final then (mobileStopSuggestionStream s, out) else (s, out)
  | .otherJson fin =>
      let out : Output :=
        match mapGet s.suggestionCallbacks threadId with
        | some cb => [(cb, CbArg.nonEvent fin)]
        | none => []
      if fin then (mobileStopSuggestionStream s, out) else (s, out)

/-- One event-loop turn of the mobile ChatService. -/
def mobileStep (s : MgrState) : Action → Option (MgrState × Output)
  | .startCall threadId cb => some (mobileStartSuggestionStreamCall s threadId cb, [])
  | .startResume r =>
      match s.pendingStarts.find? (fun p => p.1 == r) with
      | none => none
      | some q => some (mobileStartSuggestionStreamResume s r q.2, [])
  | .startThrow r =>
      match s.pendingStarts.find? (fun p => p.1 == r) with
      | none => none
      | some _ => some (mobileStartSuggestionStreamThrow s r, [])
  | .stopCall => some (mobileStopSuggestionStream s, [])
  | .msg sid p =>
      if s.pendingStarts.isEmpty then
        match findStream s.streams sid with
        | none => none
        | some st => if st.isOpen then some (mobileOnmessage s st.tid p) else none
      else none
  | .errorEvent sid =>
      if s.pendingStarts.isEmpty then
        match findStream s.streams sid with
        | none => none
        | some st => if st.isOpen then some (mobileStopSuggestionStream s, []) else none
      else none
  | .timerFire i =>
      if s.pendingStarts.isEmpty then
        match s.timers.find? (fun t => t.tmid == i) with
        | none => none
        | some t =>
            if t.fired then none
            else if t.deadline ≤ s.time then
              some (mobileStopSuggestionStream { s with timers := fireTimer s.timers i }, [])
            else none
      else none
  | .advance d =>
      if s.pendingStarts.isEmpty then
        if s.timers.all (fun t => t.fired || decide (s.time + d ≤ t.deadline)) then
          some ({ s with time := s.time + d }, [])
        else none
      else none

/-- Run a sequence of event-loop turns of the mobile ChatService. -/
def mobileRun (s : MgrState) : List Action → Option (MgrState × Output)
  | [] => some (s, [])
  | a :: acts =>
      match mobileStep s a with
      | none => none
      | some (s1, out) =>
          match mobileRun s1 acts with
          | none => none
          | some (s2, out2) => some (s2, out ++ out2)

/-- Operations at the granularity the spec describes: each startStream
call's open request settles (fulfills or rejects) before any further
operation, so start continuations never overlap with other calls. -/
inductive AAct
  | startOk (threadId : String) (cb : Nat)
  | startFail (threadId : String) (cb : Nat)
  | stop
  | msg (sid : Nat) (p : Payload)
  | errEv (sid : Nat)
  | fire (i : Nat)
  | advance (d : Nat)
  deriving Repr, DecidableEq

/-- Sequentialized transition: a startStream call immediately followed by
its own continuation, all other actions as in `step`. -/
def stepA (s : MgrState) : AAct → Option (MgrState × Output)
  | .startOk threadId cb =>
      run s [Action.startCall threadId cb, Action.startResume s.nextSid]
  | .startFail threadId cb =>
      run s [Action.startCall threadId cb, Action.startThrow s.nextSid]
  | .stop => step s Action.stopCall
  | .msg sid p => step s (Action.msg sid p)
  | .errEv sid => step s (Action.errorEvent sid)
  | .fire i => step s (Action.timerFire i)
  | .advance d => step s (Action.advance d)

/-- States reachable from a fresh manager when startStream calls never
overlap in flight. -/
inductive SeqReachable : MgrState → Prop
  | init : SeqReachable initState
  | next (a : AAct) (s s1 : MgrState) (out : Output) :
      SeqReachable s → stepA s a = some (s1, out) → SeqReachable s1

/-- Invariant of sequentialized execution: no start in flight, every open
stream is the current one, stream ids are fresh and distinct. -/
structure SeqInv (s : MgrState) : Prop where
  pend : s.pendingStarts = []
  openCur : ∀ st ∈ s.streams, st.isOpen = true → s.eventSource = some st.sid
  sidLt : ∀ st ∈ s.streams, st.sid < s.nextSid
  nodupSid : s.streams.Pairwise fun a b => a.sid ≠ b.sid

/-- Basic well-formedness of every reachable state: ids are allocated
freshly and the clock never passes an armed, unfired deadline. -/
structure WfState (s : MgrState) : Prop where
  sidLt : ∀ st ∈ s.streams, st.sid < s.nextSid
  pendLt : ∀ p ∈ s.pendingStarts, p.1 < s.nextSid
  nodupSid : s.streams.Pairwise fun a b => a.sid ≠ b.sid
  pendFresh : ∀ p ∈ s.pendingStarts, ∀ st ∈ s.streams, p.1 ≠ st.sid
  timerBound : ∀ t ∈ s.timers, t.fired = false → s.time ≤ t.deadline

/-- While the current session's stream is open, an unfired timer armed at
its opening is still pending and the clock has not passed its deadline:
the manager can never still be OPEN more than 15000 ms after the session
opened. -/
def SessionTimerInv (s : MgrState) : Prop :=
  ∀ sid st, s.eventSource = some sid → findStream s.streams sid = some st →
    st.isOpen = true →
    ∃ t, t ∈ s.timers ∧ t.fired = false ∧ t.deadline = st.openedAt + 15000 ∧
      s.time ≤ t.deadline

theorem mapGet_mapSet_self (m : List (String × Nat)) (k : String) (v : Nat) :
    mapGet (mapSet m k v) k = some v := by
  induction m with
  | nil => simp [mapSet, mapGet]
  | cons hd tl ih =>
      obtain ⟨k0, v0⟩ := hd
      by_cases h : k0 = k
      · subst h
        simp [mapSet, mapGet]
      · simp [mapSet, mapGet, h, ih]

theorem mapGet_mapSet_ne (m : List (String × Nat)) (k k9 : String) (v : Nat)
    (h : k9 ≠ k) : mapGet (mapSet m k v) k9 = mapGet m k9 := by
  induction m with
  | nil => simp [mapSet, mapGet, Ne.symm h]
  | cons hd tl ih =>
      obtain ⟨k0, v0⟩ := hd
      by_cases h0 : k0 = k
      · subst h0
        simp [mapSet, mapGet, Ne.symm h]
      · by_cases h9 : k0 = k9
        · subst h9
          simp [mapSet, mapGet, h0]
        · simp [mapSet, mapGet, h0, h9, ih]

theorem closeOne_sid (c : Nat) (st : StreamInfo) : (closeOne c st).sid = st.sid := by
  unfold closeOne
  split <;> rfl

theorem closeOne_tid (c : Nat) (st : StreamInfo) : (closeOne c st).tid = st.tid := by
  unfold closeOne
  split <;> rfl

theorem closeOne_open (c : Nat) (st : StreamInfo) (h : (closeOne c st).isOpen = true) :
    st.isOpen = true ∧ st.sid ≠ c := by
  unfold closeOne at h
  by_cases hc : st.sid = c
  · simp [hc] at h
  · simp [hc] at h
    exact ⟨h, hc⟩

theorem closeStream_map_sid (l : List StreamInfo) (c : Nat) :
    (closeStream l c).map StreamInfo.sid = l.map StreamInfo.sid := by
  unfold closeStream
  rw [List.map_map]
  exact List.map_congr_left fun st _ => closeOne_sid c st

theorem closeStream_pairwise (l : List StreamInfo) (c : Nat)
    (h : l.Pairwise fun a b => a.sid ≠ b.sid) :
    (closeStream l c).Pairwise fun a b => a.sid ≠ b.sid := by
  unfold closeStream
  rw [List.pairwise_map]
  refine h.imp ?_
  intro a b hab
  simpa [closeOne_sid] using hab

theorem closeStream_no_open (l : List StreamInfo) (c : Nat)
    (h : ∀ st ∈ l, st.isOpen = false) :
    ∀ st ∈ closeStream l c, st.isOpen = false := by
  intro st hst
  obtain ⟨st0, hst0, rfl⟩ := List.mem_map.mp hst
  by_contra hop
  rw [Bool.not_eq_false] at hop
  exact absurd (closeOne_open c st0 hop).1 (by simp [h st0 hst0])

theorem findStream_closeStream (l : List StreamInfo) (c : Nat) :
    findStream (closeStream l c) c =
      (findStream l c).map fun st => { st with isOpen := false } := by
  induction l with
  | nil => rfl
  | cons hd tl ih =>
      by_cases h : hd.sid = c
      · simp [closeStream, findStream, closeOne, List.find?_cons, h] at ih ⊢
      · simp only [closeStream, List.map_cons] at ih ⊢
        rw [show closeOne c hd = hd by simp [closeOne, h]]
        simp [findStream, List.find?_cons, h] at ih ⊢
        exact ih

theorem findStream_eq_none (l : List StreamInfo) (c : Nat)
    (h : ∀ st ∈ l, st.sid ≠ c) : findStream l c = none := by
  induction l with
  | nil => rfl
  | cons hd tl ih =>
      simp only [findStream, List.find?_cons]
      rw [show (hd.sid == c) = false by simp [h hd (by simp)]]
      exact ih fun st hst => h st (by simp [hst])

theorem findStream_append_of_none (l1 l2 : List StreamInfo) (c : Nat)
    (h : findStream l1 c = none) :
    findStream (l1 ++ l2) c = findStream l2 c := by
  induction l1 with
  | nil => rfl
  | cons hd tl ih =>
      simp only [findStream, List.find?_cons, List.cons_append] at h ⊢
      cases hb : (hd.sid == c) with
      | true => simp [hb] at h
      | false =>
          rw [hb] at h
          exact ih h

theorem findStream_mem (l : List StreamInfo) (c : Nat) (st : StreamInfo)
    (h : findStream l c = some st) : st ∈ l ∧ st.sid = c := by
  unfold findStream at h
  have hm := List.mem_of_find?_eq_some h
  have hp := List.find?_some h
  exact ⟨hm, by simpa using hp⟩

theorem fireOne_ids (i : Nat) (t : TimerInfo) :
    (fireOne i t).tmid = t.tmid ∧ (fireOne i t).deadline = t.deadline ∧
      (fireOne i t).sid = t.sid := by
  refine ⟨?_, ?_, ?_⟩ <;> (unfold fireOne; split <;> rfl)

theorem fireOne_unfired (i : Nat) (t : TimerInfo) (h : (fireOne i t).fired = false) :
    fireOne i t = t ∧ t.fired = false := by
  unfold fireOne at h ⊢
  by_cases hc : t.tmid = i
  · simp [hc] at h
  · simp [hc] at h ⊢
    exact h

theorem stop_eventSource (s : MgrState) :
    (stopSuggestionStream s).eventSource = none := by
  cases h : s.eventSource <;> simp [stopSuggestionStream, h]

theorem stop_callbacks (s : MgrState) :
    (stopSuggestionStream s).suggestionCallbacks = [] := by
  cases h : s.eventSource <;> simp [stopSuggestionStream, h]

theorem stop_timers (s : MgrState) : (stopSuggestionStream s).timers = s.timers := by
  cases h : s.eventSource <;> simp [stopSuggestionStream, h]

theorem stop_pending (s : MgrState) :
    (stopSuggestionStream s).pendingStarts = s.pendingStarts := by
  cases h : s.eventSource <;> simp [stopSuggestionStream, h]

theorem stop_time (s : MgrState) : (stopSuggestionStream s).time = s.time := by
  cases h : s.eventSource <;> simp [stopSuggestionStream, h]

theorem stop_nextSid (s : MgrState) : (stopSuggestionStream s).nextSid = s.nextSid := by
  cases h : s.eventSource <;> simp [stopSuggestionStream, h]

theorem stop_nextTmid (s : MgrState) :
    (stopSuggestionStream s).nextTmid = s.nextTmid := by
  cases h : s.eventSource <;> simp [stopSuggestionStream, h]

theorem stop_map_sid (s : MgrState) :
    (stopSuggestionStream s).streams.map StreamInfo.sid =
      s.streams.map StreamInfo.sid := by
  cases h : s.eventSource <;> simp [stopSuggestionStream, h, closeStream_map_sid]

theorem stop_no_open (s : MgrState)
    (h : ∀ st ∈ s.streams, st.isOpen = true → s.eventSource = some st.sid) :
    ∀ st ∈ (stopSuggestionStream s).streams, st.isOpen = false := by
  cases hev : s.eventSource with
  | none =>
      intro st hst
      simp only [stopSuggestionStream, hev] at hst
      by_contra hop
      rw [Bool.not_eq_false] at hop
      have := h st hst hop
      rw [hev] at this
      exact Option.noConfusion this
  | some c =>
      intro st hst
      simp only [stopSuggestionStream, hev] at hst
      obtain ⟨st0, hst0, rfl⟩ := List.mem_map.mp hst
      by_contra hop
      rw [Bool.not_eq_false] at hop
      obtain ⟨hop0, hne⟩ := closeOne_open c st0 hop
      have := h st0 hst0 hop0
      rw [hev] at this
      exact hne (Option.some.inj this).symm

theorem stop_idem (s : MgrState) :
    stopSuggestionStream (stopSuggestionStream s) = stopSuggestionStream s := by
  cases h : s.eventSource <;> simp [stopSuggestionStream, h]

theorem onmessage_timers (s : MgrState) (tid : String) (p : Payload) :
    (onmessage s tid p).1.timers = s.timers := by
  cases p with
  | unparseable => rfl
  | otherJson fin =>
      unfold onmessage
      cases fin
      · simp
      · simp [stop_timers]
  | eventShaped e =>
      unfold onmessage
      cases hf : e.final
      · simp [hf]
      · simp [hf, stop_timers]

/-- C9: stop is idempotent.  Calling stopSuggestionStream while the
manager is IDLE (no open stream, empty callback registry) is a no-op:
the turn succeeds (no exception), the state is unchanged and no callback
is invoked; and after any stop call, a second stop call leaves the state
unchanged, so repeated stops have the effect of one. -/
theorem c9_stop_idempotent (s : MgrState) :
    (s.eventSource = none → s.suggestionCallbacks = [] →
      step s Action.stopCall = some (s, [])) ∧
    (∀ s1 out, step s Action.stopCall = some (s1, out) →
      out = [] ∧ step s1 Action.stopCall = some (s1, [])) := by
  constructor
  · intro hev hcb
    have hstop : stopSuggestionStream s = s := by
      obtain ⟨cbs, ev, strs, pend, tm, ns, nt, ti⟩ := s
      simp only [MgrState.eventSource] at hev
      simp only [MgrState.suggestionCallbacks] at hcb
      subst hev
      subst hcb
      rfl
    simp [step, hstop]
  · intro s1 out h
    simp only [step, Option.some.injEq, Prod.mk.injEq] at h
    obtain ⟨h1, h2⟩ := h
    subst h1
    subst h2
    exact ⟨rfl, by simp [step, stop_idem]⟩

/-- C8: when creation of the underlying stream fails (the awaited
getSuggestions call rejects), the manager immediately tears down:
eventSource is nulled, the registry is cleared, no EventSource object is
created or destroyed (the set of stream identities is unchanged, so
nothing newly opened is closed), the provided callback is never invoked
and no error is surfaced - the turn succeeds with empty output. -/
theorem c8_creation_failure (s : MgrState) (r : Nat) (q : Nat × String)
    (hq : s.pendingStarts.find? (fun p => p.1 == r) = some q) :
    ∃ s1, step s (Action.startThrow r) = some (s1, []) ∧
      s1.eventSource = none ∧ s1.suggestionCallbacks = [] ∧
      s1.streams.map StreamInfo.sid = s.streams.map StreamInfo.sid := by
  refine ⟨startSuggestionStreamThrow s r, ?_, stop_eventSource _, stop_callbacks _, ?_⟩
  · simp [step, hq]
  · unfold startSuggestionStreamThrow
    rw [stop_map_sid]

/-- C7 (amended): a received message whose payload fails JSON parsing is
silently dropped: the callback is not invoked, nothing is emitted, and
the state is completely unchanged - the session stays open.  A payload
that parses as JSON is forwarded to the registered callback even when it
does not match the SuggestionEvent shape, and what happens next is
driven solely by the truthiness of the parsed value's final member:
falsy - the session stays open, state unchanged; truthy - the same
teardown as stop() follows the callback invocation (the claim as stated
is refuted by c7_counterexample). -/
theorem c7_amended (s : MgrState) (sid : Nat) (st : StreamInfo)
    (hpend : s.pendingStarts = []) (hfind : findStream s.streams sid = some st)
    (hopen : st.isOpen = true) :
    step s (Action.msg sid Payload.unparseable) = some (s, []) ∧
    (∀ cb, mapGet s.suggestionCallbacks st.tid = some cb →
      step s (Action.msg sid (Payload.otherJson false)) =
        some (s, [(cb, CbArg.nonEvent false)]) ∧
      step s (Action.msg sid (Payload.otherJson true)) =
        some (stopSuggestionStream s, [(cb, CbArg.nonEvent true)])) := by
  constructor
  · simp [step, hpend, hfind, hopen, onmessage]
  · intro cb hcb
    constructor
    · simp [step, hpend, hfind, hopen, onmessage, hcb]
    · simp [step, hpend, hfind, hopen, onmessage, hcb]

/-- C3 (amended): startSuggestionStream replaces the registry entry for
its own threadId and leaves every entry under a different threadId
untouched; the registry is only emptied wholesale by
stopSuggestionStream (the claim that starting a new session clears all
prior entries is refuted by c3_counterexample). -/
theorem c3_amended (s : MgrState) (threadId : String) (cb : Nat) :
    (∀ s1 out, step s (Action.startCall threadId cb) = some (s1, out) →
      mapGet s1.suggestionCallbacks threadId = some cb ∧
      ∀ k, k ≠ threadId →
        mapGet s1.suggestionCallbacks k = mapGet s.suggestionCallbacks k) ∧
    (∀ s1 out, step s Action.stopCall = some (s1, out) →
      s1.suggestionCallbacks = []) := by
  constructor
  · intro s1 out h
    simp only [step, Option.some.injEq, Prod.mk.injEq] at h
    obtain ⟨h1, h2⟩ := h
    subst h1
    exact ⟨mapGet_mapSet_self _ _ _, fun k hk => mapGet_mapSet_ne _ _ _ _ hk⟩
  · intro s1 out h
    simp only [step, Option.some.injEq, Prod.mk.injEq] at h
    obtain ⟨h1, h2⟩ := h
    subst h1
    exact stop_callbacks s

/-- C2 (amended): when the superseded session's stream had already been
assigned as the current one, the superseding startSuggestionStream call
closes it in its synchronous prologue, and no message pending on a
closed stream is ever dispatched: delivery on a closed stream is
impossible, so its callback is never invoked.  (The unrestricted claim
is refuted by c2_counterexample: when two startSuggestionStream calls
overlap in flight, the first session's stream is never closed and its
callback still fires.) -/
theorem c2_amended (s : MgrState) (c : Nat) :
    (∀ threadId cb s1 out, s.eventSource = some c →
      step s (Action.startCall threadId cb) = some (s1, out) →
      findStream s1.streams c =
        (findStream s.streams c).map fun st => { st with isOpen := false }) ∧
    (∀ st, findStream s.streams c = some st → st.isOpen = false →
      ∀ p, step s (Action.msg c p) = none) := by
  constructor
  · intro threadId cb s1 out hev h
    simp only [step, Option.some.injEq, Prod.mk.injEq] at h
    obtain ⟨h1, h2⟩ := h
    subst h1
    show findStream (startSuggestionStreamCall s threadId cb).streams c = _
    unfold startSuggestionStreamCall
    simp only [hev]
    exact findStream_closeStream s.streams c
  · intro st hfind hopen p
    simp only [step]
    cases hp : s.pendingStarts.isEmpty
    · simp
    · simp [hfind, hopen]

/-- C5: a successfully decoded event with a truthy final flag, delivered
on the current session's open stream while its callback is registered,
invokes that callback exactly once with exactly that event, and the very
same turn then performs the same teardown as stop (the post-state is
literally stopSuggestionStream of the pre-state): eventSource nulled,
registry cleared, and afterwards no message arriving on that session's
transport can be dispatched at all. -/
theorem c5_final_event (s : MgrState) (sid cb : Nat) (st : StreamInfo)
    (e : SuggestionEvent) (hpend : s.pendingStarts = [])
    (hfind : findStream s.streams sid = some st) (hopen : st.isOpen = true)
    (hcur : s.eventSource = some sid)
    (hcb : mapGet s.suggestionCallbacks st.tid = some cb) (hfin : e.final = true) :
    step s (Action.msg sid (Payload.eventShaped e)) =
      some (stopSuggestionStream s, [(cb, CbArg.ev e)]) ∧
    step s Action.stopCall = some (stopSuggestionStream s, []) ∧
    (stopSuggestionStream s).eventSource = none ∧
    (stopSuggestionStream s).suggestionCallbacks = [] ∧
    (∀ p, step (stopSuggestionStream s) (Action.msg sid p) = none) := by
  refine ⟨?_, rfl, stop_eventSource s, stop_callbacks s, ?_⟩
  · simp [step, hpend, hfind, hopen, onmessage, hcb, hfin]
  · intro p
    have hstr : (stopSuggestionStream s).streams = closeStream s.streams sid := by
      simp [stopSuggestionStream, hcur]
    have hps : (stopSuggestionStream s).pendingStarts = [] := by
      rw [stop_pending, hpend]
    simp only [step, hps, List.isEmpty_nil, hstr, findStream_closeStream, hfind,
      Option.map_some]
    simp

/-- C1 (amended): the 15-second expiry timer is never canceled.  No
transition removes an armed timer or changes its deadline - in
particular neither starting a new stream nor tearing the manager down
defuses it - and when a timer fires it performs the stop teardown (the
manager ends IDLE) with no callback invocation.  The original claim that
a timer never fires after its session's teardown is refuted by
c1_counterexample. -/
theorem c1_amended (s : MgrState) :
    (∀ a s1 out, step s a = some (s1, out) → ∀ t ∈ s.timers,
      ∃ t9, t9 ∈ s1.timers ∧ t9.tmid = t.tmid ∧ t9.deadline = t.deadline ∧
        t9.sid = t.sid) ∧
    (∀ i s1 out, step s (Action.timerFire i) = some (s1, out) →
      out = [] ∧ s1.eventSource = none) := by
  constructor
  · intro a s1 out h t ht
    cases a with
    | startCall tid cb =>
        simp only [step, Option.some.injEq, Prod.mk.injEq] at h
        obtain ⟨h1, h2⟩ := h
        subst h1
        exact ⟨t, ht, rfl, rfl, rfl⟩
    | startResume r =>
        simp only [step] at h
        cases hq : s.pendingStarts.find? (fun p => p.1 == r) with
        | none => rw [hq] at h; exact absurd h (by simp)
        | some q =>
            rw [hq] at h
            simp only [Option.some.injEq, Prod.mk.injEq] at h
            obtain ⟨h1, h2⟩ := h
            subst h1
            exact ⟨t, List.mem_append_left _ ht, rfl, rfl, rfl⟩
    | startThrow r =>
        simp only [step] at h
        cases hq : s.pendingStarts.find? (fun p => p.1 == r) with
        | none => rw [hq] at h; exact absurd h (by simp)
        | some q =>
            rw [hq] at h
            simp only [Option.some.injEq, Prod.mk.injEq] at h
            obtain ⟨h1, h2⟩ := h
            subst h1
            refine ⟨t, ?_, rfl, rfl, rfl⟩
            rw [startSuggestionStreamThrow, stop_timers]
            exact ht
    | stopCall =>
        simp only [step, Option.some.injEq, Prod.mk.injEq] at h
        obtain ⟨h1, h2⟩ := h
        subst h1
        refine ⟨t, ?_, rfl, rfl, rfl⟩
        rw [stop_timers]
        exact ht
    | msg sid p =>
        cases hp : s.pendingStarts.isEmpty
        · simp [step, hp] at h
        · cases hf : findStream s.streams sid with
          | none => simp [step, hp, hf] at h
          | some st =>
              cases ho : st.isOpen
              · simp [step, hp, hf, ho] at h
              · simp only [step, hp, hf, ho, if_true, Option.some.injEq] at h
                refine ⟨t, ?_, rfl, rfl, rfl⟩
                have h1 : (onmessage s st.tid p).1 = s1 := by rw [h]
                rw [← h1, onmessage_timers]
                exact ht
    | errorEvent sid =>
        cases hp : s.pendingStarts.isEmpty
        · simp [step, hp] at h
        · cases hf : findStream s.streams sid with
          | none => simp [step, hp, hf] at h
          | some st =>
              cases ho : st.isOpen
              · simp [step, hp, hf, ho] at h
              · simp only [step, hp, hf, ho, if_true, Option.some.injEq,
                  Prod.mk.injEq] at h
                obtain ⟨h1, h2⟩ := h
                subst h1
                refine ⟨t, ?_, rfl, rfl, rfl⟩
                rw [stop_timers]
                exact ht
    | timerFire i =>
        cases hp : s.pendingStarts.isEmpty
        · simp [step, hp] at h
        · cases hq : s.timers.find? (fun t0 => t0.tmid == i) with
          | none => simp [step, hp, hq] at h
          | some t0 =>
              cases hff : t0.fired
              · by_cases hd : t0.deadline ≤ s.time
                · simp only [step, hp, hq, hff, hd, Bool.false_eq_true, if_false,
                    if_true, Option.some.injEq, Prod.mk.injEq] at h
                  obtain ⟨h1, h2⟩ := h
                  subst h1
                  refine ⟨fireOne i t, ?_, (fireOne_ids i t).1, (fireOne_ids i t).2.1,
                    (fireOne_ids i t).2.2⟩
                  rw [stop_timers]
                  exact List.mem_map_of_mem _ ht
                · simp [step, hp, hq, hff, hd] at h
              · simp [step, hp, hq, hff] at h
    | advance d =>
        cases hall : s.timers.all (fun t0 => t0.fired || decide (s.time + d ≤ t0.deadline))
        · simp [step, hall] at h
        · cases hp : s.pendingStarts.isEmpty
          · simp [step, hp] at h
          · simp only [step, hp, hall, if_true, Option.some.injEq, Prod.mk.injEq] at h
            obtain ⟨h1, h2⟩ := h
            subst h1
            exact ⟨t, ht, rfl, rfl, rfl⟩
  · intro i s1 out h
    cases hp : s.pendingStarts.isEmpty
    · simp [step, hp] at h
    · cases hq : s.timers.find? (fun t0 => t0.tmid == i) with
      | none => simp [step, hp, hq] at h
      | some t0 =>
          cases hff : t0.fired
          · by_cases hd : t0.deadline ≤ s.time
            · simp only [step, hp, hq, hff, hd, Bool.false_eq_true, if_false,
                if_true, Option.some.injEq, Prod.mk.injEq] at h
              obtain ⟨h1, h2⟩ := h
              subst h1
              exact ⟨h2.symm, stop_eventSource _⟩
            · simp [step, hp, hq, hff, hd] at h
          · simp [step, hp, hq, hff] at h

/-- C1 is false on the code: the 15-second timer is never canceled.  In
this run session 1 (thread t1, stream 0) ends with a final event - the
same teardown as stop - and session 2 (thread t2, stream 1) is then
started; 15000 ms after session 1 began, its timer is still armed (first
run: timer 0 has fired = false even though its session was torn down
long before) and firing it performs a teardown that closes session 2's
stream and clears its registry entry (second run: stream 1 closed,
eventSource none, registry empty). -/
theorem c1_counterexample :
    run initState
      [Action.startCall "t1" 1, Action.startResume 0,
       Action.msg 0 (Payload.eventShaped ⟨none, ["a"], "react", true⟩),
       Action.startCall "t2" 2, Action.startResume 1, Action.advance 15000] =
      some (⟨[("t2", 2)], some 1,
        [⟨0, "t1", false, 0⟩, ⟨1, "t2", true, 0⟩], [],
        [⟨0, 15000, false, 0⟩, ⟨1, 15000, false, 1⟩], 2, 2, 15000⟩,
        [(1, CbArg.ev ⟨none, ["a"], "react", true⟩)]) ∧
    run initState
      [Action.startCall "t1" 1, Action.startResume 0,
       Action.msg 0 (Payload.eventShaped ⟨none, ["a"], "react", true⟩),
       Action.startCall "t2" 2, Action.startResume 1, Action.advance 15000,
       Action.timerFire 0] =
      some (⟨[], none,
        [⟨0, "t1", false, 0⟩, ⟨1, "t2", false, 0⟩], [],
        [⟨0, 15000, true, 0⟩, ⟨1, 15000, false, 1⟩], 2, 2, 15000⟩,
        [(1, CbArg.ev ⟨none, ["a"], "react", true⟩)]) :=
  ⟨rfl, rfl⟩

/-- C2 is false on the code: startSuggestionStream("t1", cb1) followed
immediately by startSuggestionStream("t2", cb2) - the spec's own
scenario - leaves stream 0 (t1's subscription) open, because t2's
synchronous prologue ran while this.eventSource was still null; when the
two awaited opens then resolve in order, stream 0 is assigned handlers
and never closed, and a message arriving on it finds the registry entry
("t1", 1) still present (startSuggestionStream never cleared it) and
invokes callback 1 even though t1's session was superseded before any
message arrived. -/
theorem c2_counterexample :
    run initState
      [Action.startCall "t1" 1, Action.startCall "t2" 2,
       Action.startResume 0, Action.startResume 1,
       Action.msg 0 (Payload.eventShaped ⟨none, ["a"], "react", false⟩)] =
      some (⟨[("t1", 1), ("t2", 2)], some 1,
        [⟨0, "t1", true, 0⟩, ⟨1, "t2", true, 0⟩], [],
        [⟨0, 15000, false, 0⟩, ⟨1, 15000, false, 1⟩], 2, 2, 0⟩,
        [(1, CbArg.ev ⟨none, ["a"], "react", false⟩)]) :=
  rfl

/-- C3 is false on the code: starting a new session does not clear prior
registry entries.  After startSuggestionStream("t1", 1) completes and
startSuggestionStream("t2", 2) supersedes it (old stream closed, new one
opened - a fully sequential run with no overlapping calls), the registry
still contains the superseded session's entry ("t1", 1). -/
theorem c3_counterexample :
    run initState
      [Action.startCall "t1" 1, Action.startResume 0,
       Action.startCall "t2" 2, Action.startResume 1] =
      some (⟨[("t1", 1), ("t2", 2)], some 1,
        [⟨0, "t1", false, 0⟩, ⟨1, "t2", true, 0⟩], [],
        [⟨0, 15000, false, 0⟩, ⟨1, 15000, false, 1⟩], 2, 2, 0⟩, []) ∧
    mapGet [("t1", 1), ("t2", 2)] "t1" = some 1 :=
  ⟨rfl, rfl⟩

/-- C4 is false on the code: two subscriptions can be concurrently open.
When startSuggestionStream("t1", 1) and startSuggestionStream("t2", 2)
are called back to back, each synchronous prologue sees
this.eventSource still null and closes nothing; both awaited opens then
resolve, leaving stream 0 and stream 1 both open at once (and stream 0
is never closed afterwards by any manager action). -/
theorem c4_counterexample :
    run initState
      [Action.startCall "t1" 1, Action.startCall "t2" 2,
       Action.startResume 0, Action.startResume 1] =
      some (⟨[("t1", 1), ("t2", 2)], some 1,
        [⟨0, "t1", true, 0⟩, ⟨1, "t2", true, 0⟩], [],
        [⟨0, 15000, false, 0⟩, ⟨1, 15000, false, 1⟩], 2, 2, 0⟩, []) ∧
    ([⟨0, "t1", true, 0⟩, ⟨1, "t2", true, 0⟩] : List StreamInfo).countP
      (fun st => st.isOpen) = 2 :=
  ⟨rfl, rfl⟩

/-- C7 is false on the code: a payload that is not parseable per the
Event shape is not necessarily dropped.  JSON.parse only rejects JSON
syntax errors; a JSON-parseable payload that does not match the
SuggestionEvent shape is passed to the registered callback rather than
being silently dropped, and it need not leave the session open either.
First run: a non-Event value with falsy final (Payload.otherJson false)
invokes callback 1, violating "the callback is never invoked".  Second
run: a non-Event value with truthy final (Payload.otherJson true, e.g.
the payload consisting of just a true final member) invokes callback 1
and then performs the full stop() teardown - stream 0 closed,
eventSource none, registry empty - violating "no teardown occurs" and
"the manager remains in OPEN". -/
theorem c7_counterexample :
    run initState
      [Action.startCall "t1" 1, Action.startResume 0,
       Action.msg 0 (Payload.otherJson false)] =
      some (⟨[("t1", 1)], some 0, [⟨0, "t1", true, 0⟩], [],
        [⟨0, 15000, false, 0⟩], 1, 1, 0⟩, [(1, CbArg.nonEvent false)]) ∧
    run initState
      [Action.startCall "t1" 1, Action.startResume 0,
       Action.msg 0 (Payload.otherJson true)] =
      some (⟨[], none, [⟨0, "t1", false, 0⟩], [],
        [⟨0, 15000, false, 0⟩], 1, 1, 0⟩, [(1, CbArg.nonEvent true)]) :=
  ⟨rfl, rfl⟩

theorem call_map_sid (s : MgrState) (tid : String) (cb : Nat) :
    (startSuggestionStreamCall s tid cb).streams.map StreamInfo.sid =
      s.streams.map StreamInfo.sid := by
  cases h : s.eventSource <;>
    simp [startSuggestionStreamCall, h, closeStream_map_sid]

theorem call_sid_mem (s : MgrState) (tid : String) (cb : Nat) (st : StreamInfo)
    (hst : st ∈ (startSuggestionStreamCall s tid cb).streams) :
    ∃ st0 ∈ s.streams, st.sid = st0.sid := by
  cases h : s.eventSource with
  | none =>
      refine ⟨st, ?_, rfl⟩
      simpa [startSuggestionStreamCall, h] using hst
  | some c =>
      simp only [startSuggestionStreamCall, h] at hst
      obtain ⟨st0, hst0, rfl⟩ := List.mem_map.mp hst
      exact ⟨st0, hst0, closeOne_sid c st0⟩

theorem call_pairwise (s : MgrState) (tid : String) (cb : Nat)
    (h : s.streams.Pairwise fun a b => a.sid ≠ b.sid) :
    (startSuggestionStreamCall s tid cb).streams.Pairwise
      fun a b => a.sid ≠ b.sid := by
  cases hev : s.eventSource with
  | none => simpa [startSuggestionStreamCall, hev] using h
  | some c =>
      simp only [startSuggestionStreamCall, hev]
      exact closeStream_pairwise s.streams c h

theorem call_no_open (s : MgrState) (tid : String) (cb : Nat)
    (hopenCur : ∀ st ∈ s.streams, st.isOpen = true → s.eventSource = some st.sid) :
    ∀ st ∈ (startSuggestionStreamCall s tid cb).streams, st.isOpen = false := by
  intro st hst
  cases hev : s.eventSource with
  | none =>
      simp only [startSuggestionStreamCall, hev] at hst
      by_contra hop
      rw [Bool.not_eq_false] at hop
      have := hopenCur st hst hop
      rw [hev] at this
      exact Option.noConfusion this
  | some c =>
      simp only [startSuggestionStreamCall, hev] at hst
      obtain ⟨st0, hst0, rfl⟩ := List.mem_map.mp hst
      by_contra hop
      rw [Bool.not_eq_false] at hop
      obtain ⟨hop0, hne⟩ := closeOne_open c st0 hop
      have := hopenCur st0 hst0 hop0
      rw [hev] at this
      exact hne (Option.some.inj this).symm

theorem stepA_startOk (s : MgrState) (tid : String) (cb : Nat)
    (hpend : s.pendingStarts = []) :
    stepA s (AAct.startOk tid cb) =
      some (startSuggestionStreamResume (startSuggestionStreamCall s tid cb)
        s.nextSid tid, []) := by
  have hfind : (startSuggestionStreamCall s tid cb).pendingStarts.find?
      (fun p => p.1 == s.nextSid) = some (s.nextSid, tid) := by
    simp [startSuggestionStreamCall, hpend]
  show run s [Action.startCall tid cb, Action.startResume s.nextSid] = _
  simp [run, step, hfind]

theorem stepA_startFail (s : MgrState) (tid : String) (cb : Nat)
    (hpend : s.pendingStarts = []) :
    stepA s (AAct.startFail tid cb) =
      some (startSuggestionStreamThrow (startSuggestionStreamCall s tid cb)
        s.nextSid, []) := by
  have hfind : (startSuggestionStreamCall s tid cb).pendingStarts.find?
      (fun p => p.1 == s.nextSid) = some (s.nextSid, tid) := by
    simp [startSuggestionStreamCall, hpend]
  show run s [Action.startCall tid cb, Action.startThrow s.nextSid] = _
  simp [run, step, hfind]

theorem onmessage_cases (s : MgrState) (tid : String) (p : Payload) :
    (onmessage s tid p).1 = s ∨ (onmessage s tid p).1 = stopSuggestionStream s := by
  cases p with
  | unparseable => exact Or.inl rfl
  | otherJson fin =>
      unfold onmessage
      cases fin
      · left
        simp
      · right
        simp
  | eventShaped e =>
      unfold onmessage
      cases hf : e.final
      · left
        simp [hf]
      · right
        simp [hf]

theorem seqInv_init : SeqInv initState := by
  refine ⟨rfl, ?_, ?_, ?_⟩ <;> simp [initState]

theorem seqInv_stop (s : MgrState) (hInv : SeqInv s) :
    SeqInv (stopSuggestionStream s) := by
  obtain ⟨hpend, hopenCur, hsidLt, hnodup⟩ := hInv
  refine ⟨?_, ?_, ?_, ?_⟩
  · rw [stop_pending]
    exact hpend
  · intro st hst hopen
    exact absurd (stop_no_open s hopenCur st hst) (by simp [hopen])
  · intro st hst
    rw [stop_nextSid]
    cases hev : s.eventSource with
    | none =>
        apply hsidLt
        simpa [stopSuggestionStream, hev] using hst
    | some c =>
        simp only [stopSuggestionStream, hev] at hst
        obtain ⟨st0, hst0, rfl⟩ := List.mem_map.mp hst
        rw [closeOne_sid]
        exact hsidLt st0 hst0
  · cases hev : s.eventSource with
    | none => simpa [stopSuggestionStream, hev] using hnodup
    | some c =>
        simp only [stopSuggestionStream, hev]
        exact closeStream_pairwise s.streams c hnodup

theorem seqInv_step (s s1 : MgrState) (a : AAct) (out : Output)
    (hInv : SeqInv s) (hs : stepA s a = some (s1, out)) : SeqInv s1 := by
  obtain ⟨hpend, hopenCur, hsidLt, hnodup⟩ := hInv
  cases a with
  | startOk tid cb =>
      rw [stepA_startOk s tid cb hpend] at hs
      simp only [Option.some.injEq, Prod.mk.injEq] at hs
      obtain ⟨h1, h2⟩ := hs
      subst h1
      refine ⟨?_, ?_, ?_, ?_⟩
      · show ((startSuggestionStreamCall s tid cb).pendingStarts.filter
          fun p => p.1 != s.nextSid) = []
        simp [startSuggestionStreamCall, hpend]
      · intro st hst hopen
        rcases List.mem_append.mp hst with hl | hr
        · exact absurd (call_no_open s tid cb hopenCur st hl) (by simp [hopen])
        · rcases List.mem_singleton.mp hr with rfl
          rfl
      · intro st hst
        show st.sid < s.nextSid + 1
        rcases List.mem_append.mp hst with hl | hr
        · obtain ⟨st0, hst0, heq⟩ := call_sid_mem s tid cb st hl
          rw [heq]
          exact Nat.lt_succ_of_lt (hsidLt st0 hst0)
        · rcases List.mem_singleton.mp hr with rfl
          exact Nat.lt_succ_self _
      · refine List.pairwise_append.mpr
          ⟨call_pairwise s tid cb hnodup, List.pairwise_singleton _ _, ?_⟩
        intro st hst st9 hst9
        rcases List.mem_singleton.mp hst9 with rfl
        obtain ⟨st0, hst0, heq⟩ := call_sid_mem s tid cb st hst
        show st.sid ≠ s.nextSid
        rw [heq]
        exact Nat.ne_of_lt (hsidLt st0 hst0)
  | startFail tid cb =>
      rw [stepA_startFail s tid cb hpend] at hs
      simp only [Option.some.injEq, Prod.mk.injEq] at hs
      obtain ⟨h1, h2⟩ := hs
      subst h1
      have hmid : SeqInv { startSuggestionStreamCall s tid cb with
          pendingStarts := (startSuggestionStreamCall s tid cb).pendingStarts.filter
            fun p => p.1 != s.nextSid } := by
        refine ⟨?_, ?_, ?_, ?_⟩
        · simp [startSuggestionStreamCall, hpend]
        · intro st hst hopen
          exact absurd (call_no_open s tid cb hopenCur st hst) (by simp [hopen])
        · intro st hst
          show st.sid < s.nextSid + 1
          obtain ⟨st0, hst0, heq⟩ := call_sid_mem s tid cb st hst
          rw [heq]
          exact Nat.lt_succ_of_lt (hsidLt st0 hst0)
        · exact call_pairwise s tid cb hnodup
      exact seqInv_stop _ hmid
  | stop =>
      simp only [stepA, step, Option.some.injEq, Prod.mk.injEq] at hs
      obtain ⟨h1, h2⟩ := hs
      subst h1
      exact seqInv_stop s ⟨hpend, hopenCur, hsidLt, hnodup⟩
  | msg sid p =>
      have hInv2 : SeqInv s := ⟨hpend, hopenCur, hsidLt, hnodup⟩
      simp only [stepA] at hs
      cases hp : s.pendingStarts.isEmpty
      · simp [step, hp] at hs
      · cases hf : findStream s.streams sid with
        | none => simp [step, hp, hf] at hs
        | some st =>
            cases ho : st.isOpen
            · simp [step, hp, hf, ho] at hs
            · simp only [step, hp, hf, ho, if_true, Option.some.injEq] at hs
              have h1 : (onmessage s st.tid p).1 = s1 := by rw [hs]
              rcases onmessage_cases s st.tid p with hc | hc
              · rw [hc] at h1
                rw [← h1]
                exact hInv2
              · rw [hc] at h1
                rw [← h1]
                exact seqInv_stop s hInv2
  | errEv sid =>
      have hInv2 : SeqInv s := ⟨hpend, hopenCur, hsidLt, hnodup⟩
      simp only [stepA] at hs
      cases hp : s.pendingStarts.isEmpty
      · simp [step, hp] at hs
      · cases hf : findStream s.streams sid with
        | none => simp [step, hp, hf] at hs
        | some st =>
            cases ho : st.isOpen
            · simp [step, hp, hf, ho] at hs
            · simp only [step, hp, hf, ho, if_true, Option.some.injEq,
                Prod.mk.injEq] at hs
              obtain ⟨h1, h2⟩ := hs
              subst h1
              exact seqInv_stop s hInv2
  | fire i =>
      simp only [stepA] at hs
      cases hp : s.pendingStarts.isEmpty
      · simp [step, hp] at hs
      · cases hq : s.timers.find? (fun t0 => t0.tmid == i) with
        | none => simp [step, hp, hq] at hs
        | some t0 =>
            cases hff : t0.fired
            · by_cases hd : t0.deadline ≤ s.time
              · simp only [step, hp, hq, hff, hd, Bool.false_eq_true, if_false,
                  if_true, Option.some.injEq, Prod.mk.injEq] at hs
                obtain ⟨h1, h2⟩ := hs
                subst h1
                exact seqInv_stop _ ⟨hpend, hopenCur, hsidLt, hnodup⟩
              · simp [step, hp, hq, hff, hd] at hs
            · simp [step, hp, hq, hff] at hs
  | advance d =>
      simp only [stepA] at hs
      cases hall : s.timers.all
        (fun t0 => t0.fired || decide (s.time + d ≤ t0.deadline))
      · simp [step, hall] at hs
      · cases hp : s.pendingStarts.isEmpty
        · simp [step, hp] at hs
        · simp only [step, hp, hall, if_true, Option.some.injEq,
            Prod.mk.injEq] at hs
          obtain ⟨h1, h2⟩ := hs
          subst h1
          exact ⟨hpend, hopenCur, hsidLt, hnodup⟩

theorem seqReachable_inv (s : MgrState) (h : SeqReachable s) : SeqInv s := by
  induction h with
  | init => exact seqInv_init
  | next a s0 s1 out _ hs ih => exact seqInv_step s0 s1 a out ih hs

theorem eq_of_sid_eq (l : List StreamInfo)
    (hnd : l.Pairwise fun a b => a.sid ≠ b.sid) (st1 st2 : StreamInfo)
    (h1 : st1 ∈ l) (h2 : st2 ∈ l) (hsid : st1.sid = st2.sid) : st1 = st2 := by
  induction l with
  | nil => cases h1
  | cons hd tl ih =>
      rcases List.pairwise_cons.mp hnd with ⟨hhd, htl⟩
      rcases List.mem_cons.mp h1 with rfl | h1t
      · rcases List.mem_cons.mp h2 with rfl | h2t
        · rfl
        · exact absurd hsid (hhd st2 h2t)
      · rcases List.mem_cons.mp h2 with rfl | h2t
        · exact absurd hsid.symm (hhd st1 h1t)
        · exact ih htl h1t h2t

/-- C4 (amended): provided startSuggestionStream calls never overlap in
flight (each call's awaited open settles before the next operation, the
granularity at which the spec describes the manager), at most one stream
is ever open: any two open streams in a reachable state are the same
one, and the superseding call closed the prior subscription in its
synchronous prologue before the new one opened.  (The unrestricted
claim is refuted by c4_counterexample: overlapping calls leave two
streams concurrently open.) -/
theorem c4_amended (s : MgrState) (h : SeqReachable s) :
    ∀ st1 ∈ s.streams, ∀ st2 ∈ s.streams,
      st1.isOpen = true → st2.isOpen = true → st1 = st2 := by
  intro st1 h1 st2 h2 ho1 ho2
  obtain ⟨hpend, hopenCur, hsidLt, hnodup⟩ := seqReachable_inv s h
  have e1 := hopenCur st1 h1 ho1
  have e2 := hopenCur st2 h2 ho2
  rw [e1] at e2
  exact eq_of_sid_eq s.streams hnodup st1 st2 h1 h2 (Option.some.inj e2)

theorem onmessage_time (s : MgrState) (tid : String) (p : Payload) :
    (onmessage s tid p).1.time = s.time := by
  rcases onmessage_cases s tid p with hc | hc <;> rw [hc]
  exact stop_time s

theorem startResume_shape (s : MgrState) (r : Nat) (s1 : MgrState) (out : Output)
    (h : step s (Action.startResume r) = some (s1, out)) :
    ∃ q, s.pendingStarts.find? (fun p => p.1 == r) = some q ∧ q.1 = r ∧
      q ∈ s.pendingStarts ∧ s1 = startSuggestionStreamResume s r q.2 ∧
      out = [] := by
  cases hq : s.pendingStarts.find? (fun p => p.1 == r) with
  | none => simp [step, hq] at h
  | some q =>
      simp only [step, hq, Option.some.injEq, Prod.mk.injEq] at h
      obtain ⟨h1, h2⟩ := h
      refine ⟨q, rfl, ?_, List.mem_of_find?_eq_some hq, h1.symm, h2.symm⟩
      have := List.find?_some hq
      simpa using this

theorem startThrow_shape (s : MgrState) (r : Nat) (s1 : MgrState) (out : Output)
    (h : step s (Action.startThrow r) = some (s1, out)) :
    s1 = startSuggestionStreamThrow s r ∧ out = [] := by
  cases hq : s.pendingStarts.find? (fun p => p.1 == r) with
  | none => simp [step, hq] at h
  | some q =>
      simp only [step, hq, Option.some.injEq, Prod.mk.injEq] at h
      exact ⟨h.1.symm, h.2.symm⟩

theorem msg_shape (s : MgrState) (sid : Nat) (p : Payload) (s1 : MgrState)
    (out : Output) (h : step s (Action.msg sid p) = some (s1, out)) :
    ∃ st, findStream s.streams sid = some st ∧ st.isOpen = true ∧
      onmessage s st.tid p = (s1, out) ∧ s.pendingStarts = [] := by
  cases hp : s.pendingStarts.isEmpty
  · simp [step, hp] at h
  · cases hf : findStream s.streams sid with
    | none => simp [step, hp, hf] at h
    | some st =>
        cases ho : st.isOpen
        · simp [step, hp, hf, ho] at h
        · simp only [step, hp, hf, ho, if_true, Option.some.injEq] at h
          exact ⟨st, rfl, ho, h, List.isEmpty_iff.mp hp⟩

theorem errorEvent_shape (s : MgrState) (sid : Nat) (s1 : MgrState) (out : Output)
    (h : step s (Action.errorEvent sid) = some (s1, out)) :
    s1 = stopSuggestionStream s ∧ out = [] := by
  cases hp : s.pendingStarts.isEmpty
  · simp [step, hp] at h
  · cases hf : findStream s.streams sid with
    | none => simp [step, hp, hf] at h
    | some st =>
        cases ho : st.isOpen
        · simp [step, hp, hf, ho] at h
        · simp only [step, hp, hf, ho, if_true, Option.some.injEq,
            Prod.mk.injEq] at h
          exact ⟨h.1.symm, h.2.symm⟩

theorem timerFire_shape (s : MgrState) (i : Nat) (s1 : MgrState) (out : Output)
    (h : step s (Action.timerFire i) = some (s1, out)) :
    s1 = stopSuggestionStream { s with timers := fireTimer s.timers i } ∧
      out = [] := by
  cases hp : s.pendingStarts.isEmpty
  · simp [step, hp] at h
  · cases hq : s.timers.find? (fun t0 => t0.tmid == i) with
    | none => simp [step, hp, hq] at h
    | some t0 =>
        cases hff : t0.fired
        · by_cases hd : t0.deadline ≤ s.time
          · simp only [step, hp, hq, hff, hd, Bool.false_eq_true, if_false,
              if_true, Option.some.injEq, Prod.mk.injEq] at h
            exact ⟨h.1.symm, h.2.symm⟩
          · simp [step, hp, hq, hff, hd] at h
        · simp [step, hp, hq, hff] at h

theorem advance_shape (s : MgrState) (d : Nat) (s1 : MgrState) (out : Output)
    (h : step s (Action.advance d) = some (s1, out)) :
    s.pendingStarts = [] ∧ s1 = { s with time := s.time + d } ∧ out = [] ∧
      ∀ t ∈ s.timers, t.fired = false → s.time + d ≤ t.deadline := by
  cases hp : s.pendingStarts.isEmpty
  · simp [step, hp] at h
  · cases hall : s.timers.all
      (fun t0 => t0.fired || decide (s.time + d ≤ t0.deadline))
    · simp [step, hp, hall] at h
    · simp only [step, hp, hall, if_true, Option.some.injEq, Prod.mk.injEq] at h
      refine ⟨List.isEmpty_iff.mp hp, h.1.symm, h.2.symm, ?_⟩
      intro t ht hf
      have := List.all_eq_true.mp hall t ht
      rw [hf] at this
      simp only [Bool.false_or] at this
      exact of_decide_eq_true this

theorem stop_sid_mem (s : MgrState) (st : StreamInfo)
    (hst : st ∈ (stopSuggestionStream s).streams) :
    ∃ st0 ∈ s.streams, st.sid = st0.sid := by
  cases hev : s.eventSource with
  | none =>
      refine ⟨st, ?_, rfl⟩
      simpa [stopSuggestionStream, hev] using hst
  | some c =>
      simp only [stopSuggestionStream, hev] at hst
      obtain ⟨st0, hst0, rfl⟩ := List.mem_map.mp hst
      exact ⟨st0, hst0, closeOne_sid c st0⟩

theorem wf_stop (s : MgrState) (hw : WfState s) :
    WfState (stopSuggestionStream s) := by
  obtain ⟨hsidLt, hpendLt, hnodup, hfresh, htb⟩ := hw
  refine ⟨?_, ?_, ?_, ?_, ?_⟩
  · intro st hst
    rw [stop_nextSid]
    obtain ⟨st0, hst0, heq⟩ := stop_sid_mem s st hst
    rw [heq]
    exact hsidLt st0 hst0
  · intro p hp
    rw [stop_nextSid]
    rw [stop_pending] at hp
    exact hpendLt p hp
  · cases hev : s.eventSource with
    | none => simpa [stopSuggestionStream, hev] using hnodup
    | some c =>
        simp only [stopSuggestionStream, hev]
        exact closeStream_pairwise s.streams c hnodup
  · intro p hp st hst
    rw [stop_pending] at hp
    obtain ⟨st0, hst0, heq⟩ := stop_sid_mem s st hst
    rw [heq]
    exact hfresh p hp st0 hst0
  · intro t ht hf
    rw [stop_time]
    rw [stop_timers] at ht
    exact htb t ht hf

theorem wf_init : WfState initState := by
  refine ⟨?_, ?_, ?_, ?_, ?_⟩ <;> simp [initState]

theorem sessionTimerInv_init : SessionTimerInv initState := by
  intro sid st hev hfind hopen
  simp [initState, findStream] at hfind

theorem wf_inv_step (s s1 : MgrState) (a : Action) (out : Output)
    (hw : WfState s) (hi : SessionTimerInv s)
    (hs : step s a = some (s1, out)) : WfState s1 ∧ SessionTimerInv s1 := by
  obtain ⟨hsidLt, hpendLt, hnodup, hfresh, htb⟩ := hw
  cases a with
  | startCall tid cb =>
      simp only [step, Option.some.injEq, Prod.mk.injEq] at hs
      obtain ⟨h1, h2⟩ := hs
      subst h1
      constructor
      · refine ⟨?_, ?_, ?_, ?_, ?_⟩
        · intro st hst
          show st.sid < s.nextSid + 1
          obtain ⟨st0, hst0, heq⟩ := call_sid_mem s tid cb st hst
          rw [heq]
          exact Nat.lt_succ_of_lt (hsidLt st0 hst0)
        · intro p hp
          show p.1 < s.nextSid + 1
          rcases List.mem_append.mp hp with hl | hr
          · exact Nat.lt_succ_of_lt (hpendLt p hl)
          · rcases List.mem_singleton.mp hr with rfl
            exact Nat.lt_succ_self _
        · exact call_pairwise s tid cb hnodup
        · intro p hp st hst
          obtain ⟨st0, hst0, heq⟩ := call_sid_mem s tid cb st hst
          rw [heq]
          rcases List.mem_append.mp hp with hl | hr
          · exact hfresh p hl st0 hst0
          · rcases List.mem_singleton.mp hr with rfl
            exact Ne.symm (Nat.ne_of_lt (hsidLt st0 hst0))
        · intro t ht hf
          exact htb t ht hf
      · intro sid st hev hfind hopen
        have hev2 : s.eventSource = some sid := hev
        have hstr : (startSuggestionStreamCall s tid cb).streams =
            closeStream s.streams sid := by
          simp [startSuggestionStreamCall, hev2]
        rw [hstr, findStream_closeStream] at hfind
        cases hof : findStream s.streams sid with
        | none => rw [hof] at hfind; exact absurd hfind (by simp)
        | some st0 =>
            rw [hof] at hfind
            simp only [Option.map_some', Option.some.injEq] at hfind
            rw [← hfind] at hopen
            simp at hopen
  | startResume r =>
      obtain ⟨q, hq, hqr, hqmem, h1, h2⟩ := startResume_shape s r s1 out hs
      subst h1
      constructor
      · refine ⟨?_, ?_, ?_, ?_, ?_⟩
        · intro st hst
          show st.sid < s.nextSid
          rcases List.mem_append.mp hst with hl | hr
          · exact hsidLt st hl
          · rcases List.mem_singleton.mp hr with rfl
            show r < s.nextSid
            rw [← hqr]
            exact hpendLt q hqmem
        · intro p hp
          exact hpendLt p (List.mem_of_mem_filter hp)
        · refine List.pairwise_append.mpr ⟨hnodup, List.pairwise_singleton _ _, ?_⟩
          intro st hst st9 hst9
          rcases List.mem_singleton.mp hst9 with rfl
          show st.sid ≠ r
          rw [← hqr]
          exact (hfresh q hqmem st hst).symm
        · intro p hp st hst
          have hpmem := List.mem_of_mem_filter hp
          have hpne : p.1 ≠ r := by
            have := List.of_mem_filter hp
            simpa using this
          rcases List.mem_append.mp hst with hl | hr
          · exact hfresh p hpmem st hl
          · rcases List.mem_singleton.mp hr with rfl
            exact hpne
        · intro t ht hf
          show s.time ≤ t.deadline
          rcases List.mem_append.mp ht with hl | hr
          · exact htb t hl hf
          · rcases List.mem_singleton.mp hr with rfl
            exact Nat.le_add_right _ _
      · intro sid st hev hfind hopen
        have hsid : r = sid := Option.some.inj hev
        subst hsid
        have hnone : findStream s.streams r = none := by
          refine findStream_eq_none s.streams r ?_
          intro st0 hst0
          rw [← hqr]
          exact Ne.symm (hfresh q hqmem st0 hst0)
        rw [show (startSuggestionStreamResume s r q.2).streams =
            s.streams ++ [⟨r, q.2, true, s.time⟩] from rfl,
          findStream_append_of_none _ _ _ hnone] at hfind
        simp only [findStream, List.find?_cons, beq_self_eq_true] at hfind
        have hst : st = ⟨r, q.2, true, s.time⟩ := (Option.some.inj hfind).symm
        subst hst
        refine ⟨⟨s.nextTmid, s.time + 15000, false, r⟩, ?_, rfl, rfl, ?_⟩
        · exact List.mem_append_right _ (List.mem_singleton.mpr rfl)
        · exact Nat.le_add_right _ _
  | startThrow r =>
      obtain ⟨h1, h2⟩ := startThrow_shape s r s1 out hs
      subst h1
      have hwmid : WfState { s with
          pendingStarts := s.pendingStarts.filter (fun p => p.1 != r) } := by
        refine ⟨hsidLt, ?_, hnodup, ?_, htb⟩
        · intro p hp
          exact hpendLt p (List.mem_of_mem_filter hp)
        · intro p hp st hst
          exact hfresh p (List.mem_of_mem_filter hp) st hst
      constructor
      · exact wf_stop _ hwmid
      · intro sid st hev hfind hopen
        rw [show (startSuggestionStreamThrow s r).eventSource = none from
          stop_eventSource _] at hev
        exact Option.noConfusion hev
  | stopCall =>
      simp only [step, Option.some.injEq, Prod.mk.injEq] at hs
      obtain ⟨h1, h2⟩ := hs
      subst h1
      constructor
      · exact wf_stop s ⟨hsidLt, hpendLt, hnodup, hfresh, htb⟩
      · intro sid st hev hfind hopen
        rw [stop_eventSource] at hev
        exact Option.noConfusion hev
  | msg sid p =>
      obtain ⟨st, hf, ho, hom, hpend⟩ := msg_shape s sid p s1 out hs
      have h1 : (onmessage s st.tid p).1 = s1 := by rw [hom]
      rcases onmessage_cases s st.tid p with hc | hc
      · rw [hc] at h1
        subst h1
        exact ⟨⟨hsidLt, hpendLt, hnodup, hfresh, htb⟩, hi⟩
      · rw [hc] at h1
        subst h1
        constructor
        · exact wf_stop s ⟨hsidLt, hpendLt, hnodup, hfresh, htb⟩
        · intro sid9 st9 hev hfind hopen
          rw [stop_eventSource] at hev
          exact Option.noConfusion hev
  | errorEvent sid =>
      obtain ⟨h1, h2⟩ := errorEvent_shape s sid s1 out hs
      subst h1
      constructor
      · exact wf_stop s ⟨hsidLt, hpendLt, hnodup, hfresh, htb⟩
      · intro sid9 st9 hev hfind hopen
        rw [stop_eventSource] at hev
        exact Option.noConfusion hev
  | timerFire i =>
      obtain ⟨h1, h2⟩ := timerFire_shape s i s1 out hs
      subst h1
      have hwmid : WfState { s with timers := fireTimer s.timers i } := by
        refine ⟨hsidLt, hpendLt, hnodup, hfresh, ?_⟩
        intro t ht hf
        obtain ⟨t0, ht0, rfl⟩ := List.mem_map.mp ht
        obtain ⟨heq, hf0⟩ := fireOne_unfired i t0 hf
        rw [heq]
        exact htb t0 ht0 hf0
      constructor
      · exact wf_stop _ hwmid
      · intro sid st hev hfind hopen
        rw [stop_eventSource] at hev
        exact Option.noConfusion hev
  | advance d =>
      obtain ⟨hpend, h1, h2, hbound⟩ := advance_shape s d s1 out hs
      subst h1
      constructor
      · refine ⟨hsidLt, hpendLt, hnodup, hfresh, ?_⟩
        intro t ht hf
        exact hbound t ht hf
      · intro sid st hev hfind hopen
        obtain ⟨t, htmem, htf, htd, _⟩ := hi sid st hev hfind hopen
        exact ⟨t, htmem, htf, htd, hbound t htmem htf⟩

theorem reachable_wf_inv (s : MgrState) (h : Reachable s) :
    WfState s ∧ SessionTimerInv s := by
  induction h with
  | init => exact ⟨wf_init, sessionTimerInv_init⟩
  | next a s0 s1 out _ hs ih => exact wf_inv_step s0 s1 a out ih.1 ih.2 hs

/-- C6: in every reachable state in which the current session's stream is
still open, the clock is at most 15000 ms past the instant the session
opened (SessionTimerInv: an unfired timer with deadline openedAt + 15000
is still pending and the clock can never pass an unfired deadline), so
the manager cannot remain OPEN beyond 15 seconds after
startSuggestionStream; when the timer fires the manager is forced to
IDLE (eventSource none) with no callback invocation; an incoming message
never changes the armed timers or the clock (the budget is not
activity-reset); and the clock only advances while no startStream call
is in flight, so the session opens at the same instant the call was
made. -/
theorem c6_timeout :
    (∀ s, Reachable s → SessionTimerInv s) ∧
    (∀ s i s1 out, step s (Action.timerFire i) = some (s1, out) →
      out = [] ∧ s1.eventSource = none) ∧
    (∀ s sid p s1 out, step s (Action.msg sid p) = some (s1, out) →
      s1.timers = s.timers ∧ s1.time = s.time) ∧
    (∀ s d s1 out, step s (Action.advance d) = some (s1, out) →
      s.pendingStarts = []) := by
  refine ⟨?_, ?_, ?_, ?_⟩
  · intro s h
    exact (reachable_wf_inv s h).2
  · intro s i s1 out h
    obtain ⟨h1, h2⟩ := timerFire_shape s i s1 out h
    subst h1
    exact ⟨h2, stop_eventSource _⟩
  · intro s sid p s1 out h
    obtain ⟨st, hf, ho, hom, hpend⟩ := msg_shape s sid p s1 out h
    have h1 : (onmessage s st.tid p).1 = s1 := by rw [hom]
    subst h1
    exact ⟨onmessage_timers s st.tid p, onmessage_time s st.tid p⟩
  · intro s d s1 out h
    exact (advance_shape s d s1 out h).1

theorem step_eq_mobileStep (s : MgrState) (a : Action) :
    step s a = mobileStep s a := by
  cases a <;> rfl

/-- C10: the frontend ChatService and the mobile ChatService are
behaviorally equivalent: for every sequence of event-loop turns (calls,
open-request settlements, transport messages and errors, timer fires,
clock advances) the two transition systems transcribed from the two
sources produce the same callback invocations and the same final state
(same enabledness included). -/
theorem c10_equiv (acts : List Action) :
    run initState acts = mobileRun initState acts := by
  suffices h : ∀ s, run s acts = mobileRun s acts from h initState
  induction acts with
  | nil => intro s; rfl
  | cons a acts ih =>
      intro s
      unfold run mobileRun
      rw [← step_eq_mobileStep s a]
      cases h : step s a with
      | none => rfl
      | some pr => simp [ih pr.1]

/-- Witness for c1_amended at the state reached by starting and opening a
session for thread t1: a stop turn preserves the armed timer, and a due
timer fire yields IDLE with no output. -/
theorem c1_witness :
    (∃ t9, t9 ∈ (stopSuggestionStream
        ⟨[("t1", 1)], some 0, [⟨0, "t1", true, 0⟩], [],
          [⟨0, 15000, false, 0⟩], 1, 1, 0⟩).timers ∧
      t9.tmid = 0 ∧ t9.deadline = 15000 ∧ t9.sid = 0) ∧
    (([] : Output) = [] ∧
      (stopSuggestionStream
        { (⟨[("t1", 1)], some 0, [⟨0, "t1", true, 0⟩], [],
            [⟨0, 15000, false, 0⟩], 1, 1, 15000⟩ : MgrState) with
          timers := fireTimer [⟨0, 15000, false, 0⟩] 0 }).eventSource = none) := by
  constructor
  · exact (c1_amended ⟨[("t1", 1)], some 0, [⟨0, "t1", true, 0⟩], [],
      [⟨0, 15000, false, 0⟩], 1, 1, 0⟩).1 Action.stopCall _ [] rfl
      ⟨0, 15000, false, 0⟩ (List.mem_singleton.mpr rfl)
  · exact (c1_amended ⟨[("t1", 1)], some 0, [⟨0, "t1", true, 0⟩], [],
      [⟨0, 15000, false, 0⟩], 1, 1, 15000⟩).2 0 _ [] rfl

/-- Witness for c2_amended: superseding an open t1 session closes its
stream in the prologue, and no message can be delivered on a closed
stream. -/
theorem c2_witness :
    (findStream (startSuggestionStreamCall
        ⟨[("t1", 1)], some 0, [⟨0, "t1", true, 0⟩], [],
          [⟨0, 15000, false, 0⟩], 1, 1, 0⟩ "t2" 2).streams 0 =
      (findStream [⟨0, "t1", true, 0⟩] 0).map fun st => { st with isOpen := false }) ∧
    step (⟨[], none, [⟨0, "t1", false, 0⟩], [], [⟨0, 15000, false, 0⟩], 1, 1, 0⟩ :
      MgrState) (Action.msg 0 Payload.unparseable) = none := by
  constructor
  · exact (c2_amended ⟨[("t1", 1)], some 0, [⟨0, "t1", true, 0⟩], [],
      [⟨0, 15000, false, 0⟩], 1, 1, 0⟩ 0).1 "t2" 2 _ [] rfl rfl
  · exact (c2_amended ⟨[], none, [⟨0, "t1", false, 0⟩], [],
      [⟨0, 15000, false, 0⟩], 1, 1, 0⟩ 0).2 ⟨0, "t1", false, 0⟩ rfl rfl
      Payload.unparseable

/-- Witness for c3_amended: superseding t1 with t2 registers t2's
callback, leaves t1's entry untouched, and a stop clears the registry. -/
theorem c3_witness :
    mapGet (startSuggestionStreamCall
      (⟨[("t1", 1)], some 0, [⟨0, "t1", true, 0⟩], [],
        [⟨0, 15000, false, 0⟩], 1, 1, 0⟩ : MgrState) "t2" 2).suggestionCallbacks
      "t2" = some 2 ∧
    mapGet (startSuggestionStreamCall
      (⟨[("t1", 1)], some 0, [⟨0, "t1", true, 0⟩], [],
        [⟨0, 15000, false, 0⟩], 1, 1, 0⟩ : MgrState) "t2" 2).suggestionCallbacks
      "t1" = mapGet [("t1", 1)] "t1" ∧
    (stopSuggestionStream (⟨[("t1", 1)], some 0, [⟨0, "t1", true, 0⟩], [],
      [⟨0, 15000, false, 0⟩], 1, 1, 0⟩ : MgrState)).suggestionCallbacks = [] := by
  have h := c3_amended (⟨[("t1", 1)], some 0, [⟨0, "t1", true, 0⟩], [],
    [⟨0, 15000, false, 0⟩], 1, 1, 0⟩ : MgrState) "t2" 2
  exact ⟨(h.1 _ [] rfl).1, (h.1 _ [] rfl).2 "t1" (by decide), h.2 _ [] rfl⟩

/-- Witness for c4_amended at the sequentially reached state with one
open stream. -/
theorem c4_witness : (⟨0, "t1", true, 0⟩ : StreamInfo) = ⟨0, "t1", true, 0⟩ := by
  have hr : SeqReachable ⟨[("t1", 1)], some 0, [⟨0, "t1", true, 0⟩], [],
      [⟨0, 15000, false, 0⟩], 1, 1, 0⟩ :=
    SeqReachable.next (AAct.startOk "t1" 1) initState _ [] SeqReachable.init rfl
  exact c4_amended _ hr ⟨0, "t1", true, 0⟩ (List.mem_singleton.mpr rfl)
    ⟨0, "t1", true, 0⟩ (List.mem_singleton.mpr rfl) rfl rfl

/-- Witness for c5_final_event on a concrete open session. -/
theorem c5_witness :
    step (⟨[("t1", 1)], some 0, [⟨0, "t1", true, 0⟩], [],
        [⟨0, 15000, false, 0⟩], 1, 1, 0⟩ : MgrState)
      (Action.msg 0 (Payload.eventShaped ⟨none, ["a"], "react", true⟩)) =
      some (stopSuggestionStream ⟨[("t1", 1)], some 0, [⟨0, "t1", true, 0⟩], [],
        [⟨0, 15000, false, 0⟩], 1, 1, 0⟩,
        [(1, CbArg.ev ⟨none, ["a"], "react", true⟩)]) ∧
    step (stopSuggestionStream ⟨[("t1", 1)], some 0, [⟨0, "t1", true, 0⟩], [],
      [⟨0, 15000, false, 0⟩], 1, 1, 0⟩) (Action.msg 0 Payload.unparseable) =
      none := by
  have h := c5_final_event (⟨[("t1", 1)], some 0, [⟨0, "t1", true, 0⟩], [],
    [⟨0, 15000, false, 0⟩], 1, 1, 0⟩ : MgrState) 0 1 ⟨0, "t1", true, 0⟩
    ⟨none, ["a"], "react", true⟩ rfl rfl rfl rfl rfl rfl
  exact ⟨h.1, h.2.2.2.2 Payload.unparseable⟩

/-- Witness for c6_timeout: the invariant instantiated at a reachable
open-session state, a due timer fire, a message turn and a clock
advance. -/
theorem c6_witness :
    (∃ t, t ∈ (⟨[("t1", 1)], some 0, [⟨0, "t1", true, 0⟩], [],
        [⟨0, 15000, false, 0⟩], 1, 1, 0⟩ : MgrState).timers ∧ t.fired = false ∧
      t.deadline = 0 + 15000 ∧
      (⟨[("t1", 1)], some 0, [⟨0, "t1", true, 0⟩], [],
        [⟨0, 15000, false, 0⟩], 1, 1, 0⟩ : MgrState).time ≤ t.deadline) ∧
    (([] : Output) = [] ∧
      (stopSuggestionStream
        { (⟨[("t1", 1)], some 0, [⟨0, "t1", true, 0⟩], [],
            [⟨0, 15000, false, 0⟩], 1, 1, 15000⟩ : MgrState) with
          timers := fireTimer [⟨0, 15000, false, 0⟩] 0 }).eventSource = none) ∧
    ((⟨[("t1", 1)], some 0, [⟨0, "t1", true, 0⟩], [],
        [⟨0, 15000, false, 0⟩], 1, 1, 0⟩ : MgrState).timers =
        [⟨0, 15000, false, 0⟩] ∧
      (⟨[("t1", 1)], some 0, [⟨0, "t1", true, 0⟩], [],
        [⟨0, 15000, false, 0⟩], 1, 1, 0⟩ : MgrState).time = 0) ∧
    ((⟨[("t1", 1)], some 0, [⟨0, "t1", true, 0⟩], [],
      [⟨0, 15000, false, 0⟩], 1, 1, 0⟩ : MgrState).pendingStarts = []) := by
  have hr : Reachable ⟨[("t1", 1)], some 0, [⟨0, "t1", true, 0⟩], [],
      [⟨0, 15000, false, 0⟩], 1, 1, 0⟩ :=
    Reachable.next (Action.startResume 0)
      ⟨[("t1", 1)], none, [], [(0, "t1")], [], 1, 0, 0⟩ _ []
      (Reachable.next (Action.startCall "t1" 1) initState _ [] Reachable.init rfl)
      rfl
  refine ⟨?_, ?_, ?_, ?_⟩
  · exact c6_timeout.1 _ hr 0 ⟨0, "t1", true, 0⟩ rfl rfl rfl
  · exact c6_timeout.2.1 ⟨[("t1", 1)], some 0, [⟨0, "t1", true, 0⟩], [],
      [⟨0, 15000, false, 0⟩], 1, 1, 15000⟩ 0 _ [] rfl
  · exact c6_timeout.2.2.1 ⟨[("t1", 1)], some 0, [⟨0, "t1", true, 0⟩], [],
      [⟨0, 15000, false, 0⟩], 1, 1, 0⟩ 0 Payload.unparseable _ [] rfl
  · exact c6_timeout.2.2.2 ⟨[("t1", 1)], some 0, [⟨0, "t1", true, 0⟩], [],
      [⟨0, 15000, false, 0⟩], 1, 1, 0⟩ 0 _ [] rfl

/-- Witness for c7_amended on a concrete open session. -/
theorem c7_witness :
    step (⟨[("t1", 1)], some 0, [⟨0, "t1", true, 0⟩], [],
        [⟨0, 15000, false, 0⟩], 1, 1, 0⟩ : MgrState)
      (Action.msg 0 Payload.unparseable) =
      some (⟨[("t1", 1)], some 0, [⟨0, "t1", true, 0⟩], [],
        [⟨0, 15000, false, 0⟩], 1, 1, 0⟩, []) ∧
    step (⟨[("t1", 1)], some 0, [⟨0, "t1", true, 0⟩], [],
        [⟨0, 15000, false, 0⟩], 1, 1, 0⟩ : MgrState)
      (Action.msg 0 (Payload.otherJson false)) =
      some (⟨[("t1", 1)], some 0, [⟨0, "t1", true, 0⟩], [],
        [⟨0, 15000, false, 0⟩], 1, 1, 0⟩, [(1, CbArg.nonEvent false)]) ∧
    step (⟨[("t1", 1)], some 0, [⟨0, "t1", true, 0⟩], [],
        [⟨0, 15000, false, 0⟩], 1, 1, 0⟩ : MgrState)
      (Action.msg 0 (Payload.otherJson true)) =
      some (stopSuggestionStream ⟨[("t1", 1)], some 0, [⟨0, "t1", true, 0⟩], [],
        [⟨0, 15000, false, 0⟩], 1, 1, 0⟩, [(1, CbArg.nonEvent true)]) := by
  have h := c7_amended (⟨[("t1", 1)], some 0, [⟨0, "t1", true, 0⟩], [],
    [⟨0, 15000, false, 0⟩], 1, 1, 0⟩ : MgrState) 0 ⟨0, "t1", true, 0⟩
    rfl rfl rfl
  exact ⟨h.1, (h.2 1 rfl).1, (h.2 1 rfl).2⟩

/-- Witness for c8_creation_failure at the state with one start in
flight. -/
theorem c8_witness :
    ∃ s1, step (⟨[("t1", 1)], none, [], [(0, "t1")], [], 1, 0, 0⟩ : MgrState)
        (Action.startThrow 0) = some (s1, []) ∧
      s1.eventSource = none ∧ s1.suggestionCallbacks = [] ∧
      s1.streams.map StreamInfo.sid =
        (⟨[("t1", 1)], none, [], [(0, "t1")], [], 1, 0, 0⟩ :
          MgrState).streams.map StreamInfo.sid :=
  c8_creation_failure ⟨[("t1", 1)], none, [], [(0, "t1")], [], 1, 0, 0⟩ 0
    (0, "t1") rfl

/-- Witness for c9_stop_idempotent: stop on the fresh IDLE manager is a
no-op, and stop after stop is a no-op. -/
theorem c9_witness :
    step initState Action.stopCall = some (initState, []) ∧
    (([] : Output) = [] ∧
      step (stopSuggestionStream ⟨[("t1", 1)], some 0, [⟨0, "t1", true, 0⟩], [],
          [⟨0, 15000, false, 0⟩], 1, 1, 0⟩) Action.stopCall =
        some (stopSuggestionStream ⟨[("t1", 1)], some 0, [⟨0, "t1", true, 0⟩], [],
          [⟨0, 15000, false, 0⟩], 1, 1, 0⟩, [])) := by
  constructor
  · exact (c9_stop_idempotent initState).1 rfl rfl
  · exact (c9_stop_idempotent ⟨[("t1", 1)], some 0, [⟨0, "t1", true, 0⟩], [],
      [⟨0, 15000, false, 0⟩], 1, 1, 0⟩).2 _ [] rfl

end SuggestStream
